import Mathlib

/-!
Shallow embedding of `atomic_sibling_counter` (src/src/lib.rs).

The shared counter cell is a single 64-bit word holding two packed 32-bit
sub-counts: the low 32 bits count live `SiblingToken` handles (participants),
the high 32 bits count live `SiblingCounter` handles (observers).  Machine
words are modelled as `Nat` with explicit `% 2^64` where the Rust atomics
wrap.  A panic is modelled as a `Bool` flag returned next to the post-state,
because `fetch_add` happens before the assertion in the source.
-/

namespace AtomicSiblingCounter

/-- The Rust constant u32::MAX. -/
def u32MAX : Nat := 4294967295

/-- Modulus of a 64-bit word (the cell is an AtomicU64). -/
def u64MOD : Nat := 18446744073709551616

/-- Embeds the enum CounterPart from src/src/lib.rs: which of the two packed
sub-counts an operation acts on.  Token is the participant category,
Counter the observer category. -/
inductive CounterPart where
  | Token
  | Counter
deriving DecidableEq, Repr

/-- The per-category unit added to / subtracted from the packed word; the
match on CounterPart that appears (three times) in the source, giving 1 for
Token and 0x1_00_00_00_00 for Counter. -/
def unitOf : CounterPart → Nat
  | .Token => 1
  | .Counter => 0x100000000

/-- Embeds split_counters: returns (sibling_count, issuer_count), i.e.
(counters & 0xFF_FF_FF_FF) as u32 and (counters >> 32) as u32.  The
`as u32` casts are the `% 2^32` truncations. -/
def split_counters (counters : Nat) : Nat × Nat :=
  ((counters &&& 0xFFFFFFFF) % 4294967296, (counters >>> 32) % 4294967296)

/-- Embeds new_reference_counters: the initial value stored in the freshly
Box-allocated AtomicU64, the unit of the initiating category. -/
def new_reference_counters (initiator : CounterPart) : Nat :=
  unitOf initiator

/-- Embeds add_reference acting on the current word `w`.  Returns the word
after the wrapping fetch_add together with a flag that is true iff one of
the two asserts on the pre-update value fails (a Rust panic; the atomic
add has already happened when the asserts run). -/
def add_reference (w : Nat) (part : CounterPart) : Nat × Bool :=
  let one := unitOf part
  let old_counters := w
  let newWord := (w + one) % u64MOD
  let sc := (split_counters old_counters).1
  let ic := (split_counters old_counters).2
  (newWord, ! (decide (sc < u32MAX - 1000000) && decide (ic < u32MAX - 1000000)))

/-- Embeds remove_reference acting on the current word `w`.  Returns the
word after the wrapping fetch_sub together with a flag that is true iff the
pre-update value equalled the category unit, in which case the source drops
the Box (deallocates the cell). -/
def remove_reference (w : Nat) (part : CounterPart) : Nat × Bool :=
  let one := unitOf part
  let old_counters := w
  let newWord := (w + (u64MOD - one)) % u64MOD
  (newWord, old_counters == one)

/-- Embeds the free function sibling_count: loads the word and returns the
low sub-field widened to usize (`as usize` from u32 never truncates on the
platforms Rust's std supports, so usize is modelled as Nat). -/
def sibling_count (w : Nat) : Nat :=
  (split_counters w).1

/-- State of the single heap-allocated cell, with allocation accounting: the
current word of the AtomicU64, whether the Box is currently live, and how many
times Box::new / drop(Box::from_raw) have run for it. -/
structure CellState where
  word : Nat
  allocated : Bool
  allocs : Nat
  deallocs : Nat
deriving DecidableEq, Repr

/-- A configuration of one counter group: the number of live SiblingToken
handles, the number of live SiblingCounter handles, and the cell they share. -/
structure Config where
  tokens : Nat
  counters : Nat
  cell : CellState
deriving DecidableEq, Repr

/-- The operations a program can perform on handles of one group.  attach p
is any construction of a new handle of category p from a live handle
(SiblingToken::clone / add_sibling and SiblingCounter::add_sibling both run
add_reference Token; SiblingCounter::clone and SiblingToken::counter both run
add_reference Counter).  detach p is dropping a live handle of category p
(the Drop impls run remove_reference). -/
inductive Op where
  | attach (part : CounterPart)
  | detach (part : CounterPart)
deriving DecidableEq, Repr

/-- Number of live handles of a category in a configuration. -/
def liveOf (c : Config) : CounterPart → Nat
  | .Token => c.tokens
  | .Counter => c.counters

/-- Effect of one operation on a configuration.  attach runs add_reference
on the shared word; the new handle exists only if the asserts passed (a
panicking constructor unwinds before returning the handle).  detach runs
remove_reference; when it signals exact depletion the Box is dropped. -/
def stepOp (c : Config) : Op → Config
  | .attach p =>
      let r := add_reference c.cell.word p
      { tokens := c.tokens + (if p = .Token ∧ r.2 = false then 1 else 0),
        counters := c.counters + (if p = .Counter ∧ r.2 = false then 1 else 0),
        cell := { c.cell with word := r.1 } }
  | .detach p =>
      let r := remove_reference c.cell.word p
      { tokens := c.tokens - (if p = .Token then 1 else 0),
        counters := c.counters - (if p = .Counter then 1 else 0),
        cell := { word := r.1,
                  allocated := c.cell.allocated && !r.2,
                  allocs := c.cell.allocs,
                  deallocs := c.cell.deallocs + (if r.2 then 1 else 0) } }

/-- Whether an operation is legal in a configuration: any construction needs
some live handle to clone or mint from and must stay below the panic
threshold of add_reference; a drop needs a live handle of its category. -/
def validOp (c : Config) : Op → Bool
  | .attach _ =>
      decide (1 ≤ c.tokens + c.counters) &&
      decide (c.tokens < u32MAX - 1000000) &&
      decide (c.counters < u32MAX - 1000000)
  | .detach p => decide (1 ≤ liveOf c p)

/-- Whether a whole sequence of operations is legal starting from `c`. -/
def validFrom (c : Config) : List Op → Bool
  | [] => true
  | op :: rest => validOp c op && validFrom (stepOp c op) rest

/-- The configuration created by the root constructor (SiblingCounter::new or
SiblingToken::new): one live handle of the root category and a cell freshly
allocated by new_reference_counters. -/
def initConfig (root : CounterPart) : Config :=
  { tokens := if root = .Token then 1 else 0,
    counters := if root = .Counter then 1 else 0,
    cell := { word := new_reference_counters root,
              allocated := true, allocs := 1, deallocs := 0 } }

/-- Run a sequence of operations from the root constructor. -/
def run (root : CounterPart) (ops : List Op) : Config :=
  ops.foldl stepOp (initConfig root)

/-- The lifecycle invariant: the cell was allocated exactly once; the packed
word is exactly tokens + 2^32 * counters with both counts in 32-bit range;
the cell is live precisely while some handle is, and has been deallocated
exactly once as soon as no handle is. -/
def Inv (c : Config) : Prop :=
  c.cell.allocs = 1 ∧
  c.tokens < 4294967296 ∧
  c.counters < 4294967296 ∧
  c.cell.word = c.tokens + 4294967296 * c.counters ∧
  (c.cell.allocated = true ↔ 1 ≤ c.tokens + c.counters) ∧
  c.cell.deallocs = (if 1 ≤ c.tokens + c.counters then 0 else 1)

/-- The other category: spec-side helper to speak about "the other sub-field". -/
def otherPart : CounterPart → CounterPart
  | .Token => .Counter
  | .Counter => .Token

/-- Spec-side decode helper: the sub-count of a given category in the pair
returned by split_counters (Token is the low field, Counter the high one). -/
def countOf (p : CounterPart) (pr : Nat × Nat) : Nat :=
  match p with
  | .Token => pr.1
  | .Counter => pr.2

/-- split_counters in arithmetic form: low field is mod 2^32, high field is
the quotient truncated to 32 bits. -/
theorem split_counters_eq (w : Nat) :
    split_counters w = (w % 4294967296, (w / 4294967296) % 4294967296) := by
  have h := Nat.and_pow_two_sub_one_eq_mod w 32
  have h2 := Nat.shiftRight_eq_div_pow w 32
  simp only [split_counters]
  norm_num at h h2 ⊢
  omega

/-- Splitting a word packed from two in-range sub-counts recovers them. -/
theorem split_counters_packed (T O : Nat) (hT : T < 4294967296) (hO : O < 4294967296) :
    split_counters (T + 4294967296 * O) = (T, O) := by
  rw [split_counters_eq]
  refine Prod.ext ?_ ?_ <;> simp <;> omega


/-- Unfolding equation for add_reference. -/
theorem add_reference_eq (w : Nat) (p : CounterPart) :
    add_reference w p =
      ((w + unitOf p) % u64MOD,
       ! (decide ((split_counters w).1 < u32MAX - 1000000) &&
          decide ((split_counters w).2 < u32MAX - 1000000))) := rfl

/-- Unfolding equation for remove_reference. -/
theorem remove_reference_eq (w : Nat) (p : CounterPart) :
    remove_reference w p = ((w + (u64MOD - unitOf p)) % u64MOD, w == unitOf p) := rfl

/-- When the asserts pass, attaching a Token adds 1 to the word and creates
one token handle. -/
theorem stepOp_attach_token (c : Config)
    (h : (add_reference c.cell.word .Token).2 = false) :
    stepOp c (.attach .Token) =
      { tokens := c.tokens + 1, counters := c.counters,
        cell := { word := (c.cell.word + 1) % 18446744073709551616,
                  allocated := c.cell.allocated,
                  allocs := c.cell.allocs,
                  deallocs := c.cell.deallocs } } := by
  simp only [stepOp, add_reference_eq, Bool.not_eq_false', Bool.and_eq_true,
    decide_eq_true_eq] at h ⊢
  simp [h.1, h.2, unitOf, u64MOD]

/-- When the asserts pass, attaching a Counter adds 2^32 to the word and
creates one counter handle. -/
theorem stepOp_attach_counter (c : Config)
    (h : (add_reference c.cell.word .Counter).2 = false) :
    stepOp c (.attach .Counter) =
      { tokens := c.tokens, counters := c.counters + 1,
        cell := { word := (c.cell.word + 4294967296) % 18446744073709551616,
                  allocated := c.cell.allocated,
                  allocs := c.cell.allocs,
                  deallocs := c.cell.deallocs } } := by
  simp only [stepOp, add_reference_eq, Bool.not_eq_false', Bool.and_eq_true,
    decide_eq_true_eq] at h ⊢
  simp [h.1, h.2, unitOf, u64MOD]

/-- Detaching a Token subtracts 1 (wrapping) and deallocates exactly when the
pre-update word was 1. -/
theorem stepOp_detach_token (c : Config) :
    stepOp c (.detach .Token) =
      { tokens := c.tokens - 1, counters := c.counters,
        cell := { word := (c.cell.word + 18446744073709551615) % 18446744073709551616,
                  allocated := c.cell.allocated && !(c.cell.word == 1),
                  allocs := c.cell.allocs,
                  deallocs := c.cell.deallocs + (if c.cell.word = 1 then 1 else 0) } } := by
  simp only [stepOp, remove_reference_eq, unitOf, u64MOD]
  norm_num [beq_iff_eq]
  rfl

/-- Detaching a Counter subtracts 2^32 (wrapping) and deallocates exactly when
the pre-update word was 2^32. -/
theorem stepOp_detach_counter (c : Config) :
    stepOp c (.detach .Counter) =
      { tokens := c.tokens, counters := c.counters - 1,
        cell := { word := (c.cell.word + 18446744069414584320) % 18446744073709551616,
                  allocated := c.cell.allocated && !(c.cell.word == 4294967296),
                  allocs := c.cell.allocs,
                  deallocs := c.cell.deallocs + (if c.cell.word = 4294967296 then 1 else 0) } } := by
  simp only [stepOp, remove_reference_eq, unitOf, u64MOD]
  norm_num [beq_iff_eq]
  rfl

/-- The root constructor establishes the invariant. -/
theorem inv_init (root : CounterPart) : Inv (initConfig root) := by
  cases root <;> simp only [Inv] <;> decide

/-- A valid attach does not panic: under the invariant the decoded pre-update
sub-fields are the live handle counts, which validOp keeps below the assert
threshold of add_reference. -/
theorem attach_no_panic (c : Config) (p : CounterPart) (hI : Inv c)
    (hv : validOp c (.attach p) = true) :
    (add_reference c.cell.word p).2 = false := by
  obtain ⟨_, hT, hC, hW, _, _⟩ := hI
  have hsplit : split_counters c.cell.word = (c.tokens, c.counters) := by
    rw [hW]; exact split_counters_packed _ _ hT hC
  simp only [validOp, Bool.and_eq_true, decide_eq_true_eq] at hv
  simp only [add_reference_eq, hsplit, Bool.not_eq_false', Bool.and_eq_true,
    decide_eq_true_eq]
  exact ⟨hv.1.2, hv.2⟩

/-- Attaching a Token preserves the invariant. -/
theorem inv_step_attach_token (c : Config) (hI : Inv c)
    (hv : validOp c (.attach .Token) = true) :
    Inv (stepOp c (.attach .Token)) := by
  have hnp := attach_no_panic c .Token hI hv
  obtain ⟨hA, hT, hC, hW, hAl, hD⟩ := hI
  simp only [validOp, Bool.and_eq_true, decide_eq_true_eq] at hv
  obtain ⟨⟨h1, h2⟩, h3⟩ := hv
  simp only [u32MAX] at h2 h3
  have hs := stepOp_attach_token c hnp
  have hmod : (c.cell.word + 1) % 18446744073709551616 = c.cell.word + 1 := by omega
  rw [hs, hmod]
  refine ⟨hA, ?_, ?_, ?_, ?_, ?_⟩
  · show c.tokens + 1 < 4294967296
    omega
  · show c.counters < 4294967296
    omega
  · show c.cell.word + 1 = c.tokens + 1 + 4294967296 * c.counters
    omega
  · show c.cell.allocated = true ↔ 1 ≤ c.tokens + 1 + c.counters
    rw [hAl]; omega
  · show c.cell.deallocs = if 1 ≤ c.tokens + 1 + c.counters then 0 else 1
    rw [hD]; split_ifs <;> omega

/-- Attaching a Counter preserves the invariant. -/
theorem inv_step_attach_counter (c : Config) (hI : Inv c)
    (hv : validOp c (.attach .Counter) = true) :
    Inv (stepOp c (.attach .Counter)) := by
  have hnp := attach_no_panic c .Counter hI hv
  obtain ⟨hA, hT, hC, hW, hAl, hD⟩ := hI
  simp only [validOp, Bool.and_eq_true, decide_eq_true_eq] at hv
  obtain ⟨⟨h1, h2⟩, h3⟩ := hv
  simp only [u32MAX] at h2 h3
  have hs := stepOp_attach_counter c hnp
  have hmod : (c.cell.word + 4294967296) % 18446744073709551616 =
      c.cell.word + 4294967296 := by omega
  rw [hs, hmod]
  refine ⟨hA, ?_, ?_, ?_, ?_, ?_⟩
  · show c.tokens < 4294967296
    omega
  · show c.counters + 1 < 4294967296
    omega
  · show c.cell.word + 4294967296 = c.tokens + 4294967296 * (c.counters + 1)
    omega
  · show c.cell.allocated = true ↔ 1 ≤ c.tokens + (c.counters + 1)
    rw [hAl]; omega
  · show c.cell.deallocs = if 1 ≤ c.tokens + (c.counters + 1) then 0 else 1
    rw [hD]; split_ifs <;> omega

/-- Detaching a Token preserves the invariant. -/
theorem inv_step_detach_token (c : Config) (hI : Inv c)
    (hv : validOp c (.detach .Token) = true) :
    Inv (stepOp c (.detach .Token)) := by
  obtain ⟨hA, hT, hC, hW, hAl, hD⟩ := hI
  simp only [validOp, decide_eq_true_eq, liveOf] at hv
  have hs := stepOp_detach_token c
  have hmod : (c.cell.word + 18446744073709551615) % 18446744073709551616 =
      c.tokens - 1 + 4294967296 * c.counters := by omega
  rw [hs, hmod]
  refine ⟨hA, ?_, ?_, ?_, ?_, ?_⟩
  · show c.tokens - 1 < 4294967296
    omega
  · show c.counters < 4294967296
    omega
  · show c.tokens - 1 + 4294967296 * c.counters = c.tokens - 1 + 4294967296 * c.counters
    rfl
  · show (c.cell.allocated && !(c.cell.word == 1)) = true ↔ 1 ≤ c.tokens - 1 + c.counters
    simp only [Bool.and_eq_true, Bool.not_eq_true', beq_eq_false_iff_ne, hAl]
    omega
  · show c.cell.deallocs + (if c.cell.word = 1 then 1 else 0) =
        if 1 ≤ c.tokens - 1 + c.counters then 0 else 1
    rw [hD]; split_ifs <;> omega

/-- Detaching a Counter preserves the invariant. -/
theorem inv_step_detach_counter (c : Config) (hI : Inv c)
    (hv : validOp c (.detach .Counter) = true) :
    Inv (stepOp c (.detach .Counter)) := by
  obtain ⟨hA, hT, hC, hW, hAl, hD⟩ := hI
  simp only [validOp, decide_eq_true_eq, liveOf] at hv
  have hs := stepOp_detach_counter c
  have hmod : (c.cell.word + 18446744069414584320) % 18446744073709551616 =
      c.tokens + 4294967296 * (c.counters - 1) := by omega
  rw [hs, hmod]
  refine ⟨hA, ?_, ?_, ?_, ?_, ?_⟩
  · show c.tokens < 4294967296
    omega
  · show c.counters - 1 < 4294967296
    omega
  · show c.tokens + 4294967296 * (c.counters - 1) = c.tokens + 4294967296 * (c.counters - 1)
    rfl
  · show (c.cell.allocated && !(c.cell.word == 4294967296)) = true ↔
        1 ≤ c.tokens + (c.counters - 1)
    simp only [Bool.and_eq_true, Bool.not_eq_true', beq_eq_false_iff_ne, hAl]
    omega
  · show c.cell.deallocs + (if c.cell.word = 4294967296 then 1 else 0) =
        if 1 ≤ c.tokens + (c.counters - 1) then 0 else 1
    rw [hD]; split_ifs <;> omega

/-- Every valid operation preserves the lifecycle invariant. -/
theorem inv_step (c : Config) (op : Op) (hI : Inv c) (hv : validOp c op = true) :
    Inv (stepOp c op) := by
  cases op with
  | attach p =>
      cases p with
      | Token => exact inv_step_attach_token c hI hv
      | Counter => exact inv_step_attach_counter c hI hv
  | detach p =>
      cases p with
      | Token => exact inv_step_detach_token c hI hv
      | Counter => exact inv_step_detach_counter c hI hv

/-- The invariant is preserved along any valid operation sequence. -/
theorem inv_foldl (ops : List Op) : ∀ c : Config, Inv c → validFrom c ops = true →
    Inv (ops.foldl stepOp c) := by
  induction ops with
  | nil =>
      intro c h _
      simpa using h
  | cons op rest ih =>
      intro c h hv
      simp only [validFrom, Bool.and_eq_true] at hv
      exact ih (stepOp c op) (inv_step c op h hv.1) hv.2

/-- Every reachable configuration satisfies the lifecycle invariant. -/
theorem inv_run (root : CounterPart) (ops : List Op)
    (h : validFrom (initConfig root) ops = true) : Inv (run root ops) :=
  inv_foldl ops (initConfig root) (inv_init root) h

/-- Structure eta for configurations, used to assemble concrete final states. -/
theorem config_eta (c : Config) :
    c = { tokens := c.tokens, counters := c.counters,
          cell := { word := c.cell.word, allocated := c.cell.allocated,
                    allocs := c.cell.allocs, deallocs := c.cell.deallocs } } := rfl

/-- In a reachable configuration the visible sibling count is the number of
live tokens. -/
theorem sibling_count_run (root : CounterPart) (ops : List Op)
    (h : validFrom (initConfig root) ops = true) :
    sibling_count ((run root ops).cell.word) = (run root ops).tokens := by
  obtain ⟨_, hT, hC, hW, _, _⟩ := inv_run root ops h
  simp only [sibling_count]
  rw [hW, split_counters_packed _ _ hT hC]

/-- C10: sibling_count returns exactly the low 32 bits of the word, hence a
value at most 2^32 - 1 on any platform width; the observer sub-field can
never leak into the returned count. -/
theorem c10_sibling_count_low_bits (w : Nat) :
    sibling_count w = w % 4294967296 ∧ sibling_count w ≤ 4294967295 := by
  have h : sibling_count w = w % 4294967296 := by
    simp only [sibling_count, split_counters_eq]
  refine ⟨h, ?_⟩
  rw [h]
  omega

/-- C2: detach signals deallocation iff the pre-subtraction word equals the
category unit, and the word equals the unit iff the decoded state is exactly
one reference of that category and zero of the other. -/
theorem c2_exact_depletion_iff (w : Nat) (p : CounterPart) (hw : w < u64MOD) :
    ((remove_reference w p).2 = true ↔ w = unitOf p) ∧
    (w = unitOf p ↔
      (countOf p (split_counters w) = 1 ∧
       countOf (otherPart p) (split_counters w) = 0)) := by
  simp only [u64MOD] at hw
  constructor
  · rw [remove_reference_eq]
    exact beq_iff_eq
  · rw [split_counters_eq]
    cases p <;> (simp only [countOf, otherPart, unitOf]; constructor <;> intro hh <;> omega)

/-- C2 witness: concrete instance at w = 1, participant category. -/
theorem c2_exact_depletion_iff_witness :
    ((remove_reference 1 CounterPart.Token).2 = true ↔ 1 = unitOf CounterPart.Token) ∧
    (1 = unitOf CounterPart.Token ↔
      (countOf CounterPart.Token (split_counters 1) = 1 ∧
       countOf (otherPart CounterPart.Token) (split_counters 1) = 0)) :=
  c2_exact_depletion_iff 1 CounterPart.Token (by decide)

/-- C3 as stated is false: at pre-update word 4293967295 (participant
sub-field u32::MAX - 1_000_000, observer 0) add_reference panics although
neither sub-field is at or above 2^32 - 1_000_000. -/
theorem c3_threshold_counterexample :
    (add_reference 4293967295 CounterPart.Token).2 = true ∧
    ¬ (4294967296 - 1000000 ≤ (split_counters 4293967295).1 ∨
       4294967296 - 1000000 ≤ (split_counters 4293967295).2) := by decide

/-- C3 amended: attach panics iff a decoded sub-field of the pre-update word
is at or above u32::MAX - 1_000_000 (that is 2^32 - 1 - 1_000_000, one less
than the claimed 2^32 - 1_000_000); the check covers both sub-fields
whichever category is attached, and the failure is the Bool panic flag, not
a returned value. -/
theorem c3_panic_iff_reserved_zone (w : Nat) (p : CounterPart) :
    (add_reference w p).2 = true ↔
      (u32MAX - 1000000 ≤ (split_counters w).1 ∨
       u32MAX - 1000000 ≤ (split_counters w).2) := by
  rw [add_reference_eq]
  rcases Nat.lt_or_ge (split_counters w).1 (u32MAX - 1000000) with h1 | h1 <;>
    rcases Nat.lt_or_ge (split_counters w).2 (u32MAX - 1000000) with h2 | h2 <;>
    simp [h1, h2] <;> omega

/-- C4 as stated is false: there is a word on which attach panics yet the
word after the operation differs from the word before (the fetch_add has
already happened when the assert fires). -/
theorem c4_unchanged_counterexample :
    (add_reference 4293967295 CounterPart.Token).2 = true ∧
    (add_reference 4293967295 CounterPart.Token).1 ≠ 4293967295 := by decide

/-- C4 amended: when attach panics the word is not left unchanged; it has
already been incremented by the category unit (mod 2^64), so the panic
happens after the atomic update, and only the creation of the handle is
prevented. -/
theorem c4_panic_after_update (w : Nat) (p : CounterPart) (hw : w < u64MOD)
    (hp : (add_reference w p).2 = true) :
    (add_reference w p).1 = (w + unitOf p) % u64MOD ∧
    (add_reference w p).1 ≠ w := by
  clear hp
  refine ⟨rfl, ?_⟩
  rw [add_reference_eq]
  simp only [u64MOD] at hw ⊢
  cases p <;> simp only [unitOf] <;> omega

/-- C4 witness: the amended statement at the concrete panicking word. -/
theorem c4_panic_after_update_witness :
    (add_reference 4293967295 CounterPart.Token).1 =
      (4293967295 + unitOf CounterPart.Token) % u64MOD ∧
    (add_reference 4293967295 CounterPart.Token).1 ≠ 4293967295 :=
  c4_panic_after_update 4293967295 CounterPart.Token (by decide) (by decide)

/-- C8: fresh construction initializes the cell exactly as specified:
SiblingCounter::new stores observer_count = 1, participant_count = 0 and
reports sibling_count 0; SiblingToken::new stores participant_count = 1,
observer_count = 0 and reports sibling_count 1.  Both constructors are total
in this embedding (new_reference_counters has no assert and no failure
path). -/
theorem c8_fresh_construction :
    new_reference_counters CounterPart.Counter = 4294967296 ∧
    split_counters (new_reference_counters CounterPart.Counter) = (0, 1) ∧
    sibling_count (new_reference_counters CounterPart.Counter) = 0 ∧
    (initConfig CounterPart.Counter).cell.allocs = 1 ∧
    new_reference_counters CounterPart.Token = 1 ∧
    split_counters (new_reference_counters CounterPart.Token) = (1, 0) ∧
    sibling_count (new_reference_counters CounterPart.Token) = 1 ∧
    (initConfig CounterPart.Token).cell.allocs = 1 := by decide

/-- C5: in every reachable state, constructing a new participant handle (by
clone of a token or minting from either handle kind, all of which run
add_reference Token) increases sibling_count by exactly 1, and dropping a
live participant handle decreases it by exactly 1. -/
theorem c5_participant_ops_change_count (root : CounterPart) (ops : List Op)
    (h : validFrom (initConfig root) ops = true) :
    (validOp (run root ops) (.attach .Token) = true →
      sibling_count ((stepOp (run root ops) (.attach .Token)).cell.word) =
        sibling_count ((run root ops).cell.word) + 1) ∧
    (validOp (run root ops) (.detach .Token) = true →
      1 ≤ sibling_count ((run root ops).cell.word) ∧
      sibling_count ((stepOp (run root ops) (.detach .Token)).cell.word) =
        sibling_count ((run root ops).cell.word) - 1) := by
  obtain ⟨hA, hT, hC, hW, hAl, hD⟩ := inv_run root ops h
  constructor
  · intro hva
    have hnp := attach_no_panic (run root ops) .Token ⟨hA, hT, hC, hW, hAl, hD⟩ hva
    simp only [validOp, Bool.and_eq_true, decide_eq_true_eq, u32MAX] at hva
    have hs := stepOp_attach_token (run root ops) hnp
    rw [hs]
    show sibling_count (((run root ops).cell.word + 1) % 18446744073709551616) =
      sibling_count ((run root ops).cell.word) + 1
    have hmod : ((run root ops).cell.word + 1) % 18446744073709551616 =
        (run root ops).tokens + 1 + 4294967296 * (run root ops).counters := by omega
    rw [hmod, hW]
    simp only [sibling_count]
    rw [split_counters_packed _ _ (by omega) hC, split_counters_packed _ _ hT hC]
  · intro hvd
    simp only [validOp, decide_eq_true_eq, liveOf] at hvd
    have hs := stepOp_detach_token (run root ops)
    rw [hs]
    constructor
    · show 1 ≤ sibling_count ((run root ops).cell.word)
      rw [hW]
      simp only [sibling_count]
      rw [split_counters_packed _ _ hT hC]
      exact hvd
    · show sibling_count (((run root ops).cell.word + 18446744073709551615) %
          18446744073709551616) = sibling_count ((run root ops).cell.word) - 1
      have hmod : ((run root ops).cell.word + 18446744073709551615) %
          18446744073709551616 =
          (run root ops).tokens - 1 + 4294967296 * (run root ops).counters := by omega
      rw [hmod, hW]
      simp only [sibling_count]
      rw [split_counters_packed _ _ (by omega) hC, split_counters_packed _ _ hT hC]

/-- C5 witness: concrete reachable state with one observer and one token. -/
theorem c5_participant_ops_change_count_witness :
    (validOp (run CounterPart.Counter [Op.attach CounterPart.Token])
        (.attach .Token) = true →
      sibling_count ((stepOp (run CounterPart.Counter [Op.attach CounterPart.Token])
          (.attach .Token)).cell.word) =
        sibling_count ((run CounterPart.Counter
          [Op.attach CounterPart.Token]).cell.word) + 1) ∧
    (validOp (run CounterPart.Counter [Op.attach CounterPart.Token])
        (.detach .Token) = true →
      1 ≤ sibling_count ((run CounterPart.Counter
          [Op.attach CounterPart.Token]).cell.word) ∧
      sibling_count ((stepOp (run CounterPart.Counter [Op.attach CounterPart.Token])
          (.detach .Token)).cell.word) =
        sibling_count ((run CounterPart.Counter
          [Op.attach CounterPart.Token]).cell.word) - 1) :=
  c5_participant_ops_change_count CounterPart.Counter [Op.attach CounterPart.Token]
    (by decide)

/-- C6: in every reachable state, observer-category operations (cloning an
observer, minting an observer from a token, dropping an observer — all of
which run add_reference/remove_reference with the Counter unit) leave
sibling_count unchanged: the participant sub-field of the word is not
modified. -/
theorem c6_observer_ops_preserve_count (root : CounterPart) (ops : List Op)
    (h : validFrom (initConfig root) ops = true) :
    (validOp (run root ops) (.attach .Counter) = true →
      sibling_count ((stepOp (run root ops) (.attach .Counter)).cell.word) =
        sibling_count ((run root ops).cell.word) ∧
      (split_counters ((stepOp (run root ops) (.attach .Counter)).cell.word)).1 =
        (split_counters ((run root ops).cell.word)).1) ∧
    (validOp (run root ops) (.detach .Counter) = true →
      sibling_count ((stepOp (run root ops) (.detach .Counter)).cell.word) =
        sibling_count ((run root ops).cell.word) ∧
      (split_counters ((stepOp (run root ops) (.detach .Counter)).cell.word)).1 =
        (split_counters ((run root ops).cell.word)).1) := by
  obtain ⟨hA, hT, hC, hW, hAl, hD⟩ := inv_run root ops h
  constructor
  · intro hva
    have hnp := attach_no_panic (run root ops) .Counter ⟨hA, hT, hC, hW, hAl, hD⟩ hva
    simp only [validOp, Bool.and_eq_true, decide_eq_true_eq, u32MAX] at hva
    have hs := stepOp_attach_counter (run root ops) hnp
    rw [hs]
    have hgoal : sibling_count (((run root ops).cell.word + 4294967296) %
        18446744073709551616) = sibling_count ((run root ops).cell.word) := by
      have hmod : ((run root ops).cell.word + 4294967296) % 18446744073709551616 =
          (run root ops).tokens + 4294967296 * ((run root ops).counters + 1) := by omega
      rw [hmod, hW]
      simp only [sibling_count]
      rw [split_counters_packed _ _ hT (by omega), split_counters_packed _ _ hT hC]
    exact ⟨hgoal, hgoal⟩
  · intro hvd
    simp only [validOp, decide_eq_true_eq, liveOf] at hvd
    have hs := stepOp_detach_counter (run root ops)
    rw [hs]
    have hgoal : sibling_count (((run root ops).cell.word + 18446744069414584320) %
        18446744073709551616) = sibling_count ((run root ops).cell.word) := by
      have hmod : ((run root ops).cell.word + 18446744069414584320) %
          18446744073709551616 =
          (run root ops).tokens + 4294967296 * ((run root ops).counters - 1) := by omega
      rw [hmod, hW]
      simp only [sibling_count]
      rw [split_counters_packed _ _ hT (by omega), split_counters_packed _ _ hT hC]
    exact ⟨hgoal, hgoal⟩

/-- C6 witness: concrete reachable state with one observer and one token. -/
theorem c6_observer_ops_preserve_count_witness :
    (validOp (run CounterPart.Counter [Op.attach CounterPart.Token])
        (.attach .Counter) = true →
      sibling_count ((stepOp (run CounterPart.Counter [Op.attach CounterPart.Token])
          (.attach .Counter)).cell.word) =
        sibling_count ((run CounterPart.Counter
          [Op.attach CounterPart.Token]).cell.word) ∧
      (split_counters ((stepOp (run CounterPart.Counter [Op.attach CounterPart.Token])
          (.attach .Counter)).cell.word)).1 =
        (split_counters ((run CounterPart.Counter
          [Op.attach CounterPart.Token]).cell.word)).1) ∧
    (validOp (run CounterPart.Counter [Op.attach CounterPart.Token])
        (.detach .Counter) = true →
      sibling_count ((stepOp (run CounterPart.Counter [Op.attach CounterPart.Token])
          (.detach .Counter)).cell.word) =
        sibling_count ((run CounterPart.Counter
          [Op.attach CounterPart.Token]).cell.word) ∧
      (split_counters ((stepOp (run CounterPart.Counter [Op.attach CounterPart.Token])
          (.detach .Counter)).cell.word)).1 =
        (split_counters ((run CounterPart.Counter
          [Op.attach CounterPart.Token]).cell.word)).1) :=
  c6_observer_ops_preserve_count CounterPart.Counter [Op.attach CounterPart.Token]
    (by decide)

/-- C9: dropping a live handle of either kind is total: remove_reference has
no assert, the wrapping subtraction is an exact subtraction (adding the unit
back recovers the pre-update word, so no 64-bit wraparound happened), and
the decoded pair shows the category sub-field decremented with no borrow
into the other sub-field. -/
theorem c9_drop_total_no_underflow (root : CounterPart) (ops : List Op)
    (p : CounterPart) (h : validFrom (initConfig root) ops = true)
    (hl : 1 ≤ liveOf (run root ops) p) :
    unitOf p ≤ (run root ops).cell.word ∧
    (remove_reference ((run root ops).cell.word) p).1 + unitOf p =
      (run root ops).cell.word ∧
    split_counters ((remove_reference ((run root ops).cell.word) p).1) =
      ((split_counters ((run root ops).cell.word)).1 - (if p = .Token then 1 else 0),
       (split_counters ((run root ops).cell.word)).2 - (if p = .Counter then 1 else 0)) := by
  obtain ⟨hA, hT, hC, hW, hAl, hD⟩ := inv_run root ops h
  have hsplit : split_counters ((run root ops).cell.word) =
      ((run root ops).tokens, (run root ops).counters) := by
    rw [hW]; exact split_counters_packed _ _ hT hC
  cases p with
  | Token =>
      simp only [liveOf] at hl
      refine ⟨?_, ?_, ?_⟩
      · show 1 ≤ (run root ops).cell.word
        omega
      · rw [remove_reference_eq]
        show ((run root ops).cell.word + (u64MOD - 1)) % u64MOD + 1 =
          (run root ops).cell.word
        simp only [u64MOD]
        omega
      · rw [remove_reference_eq]
        show split_counters (((run root ops).cell.word + (u64MOD - 1)) % u64MOD) = _
        have hmod : ((run root ops).cell.word + (u64MOD - 1)) % u64MOD =
            (run root ops).tokens - 1 + 4294967296 * (run root ops).counters := by
          simp only [u64MOD]
          omega
        rw [hmod, hsplit, split_counters_packed _ _ (by omega) hC]
        simp
  | Counter =>
      simp only [liveOf] at hl
      refine ⟨?_, ?_, ?_⟩
      · show 4294967296 ≤ (run root ops).cell.word
        omega
      · rw [remove_reference_eq]
        show ((run root ops).cell.word + (u64MOD - 4294967296)) % u64MOD + 4294967296 =
          (run root ops).cell.word
        simp only [u64MOD]
        omega
      · rw [remove_reference_eq]
        show split_counters (((run root ops).cell.word + (u64MOD - 4294967296)) %
          u64MOD) = _
        have hmod : ((run root ops).cell.word + (u64MOD - 4294967296)) % u64MOD =
            (run root ops).tokens + 4294967296 * ((run root ops).counters - 1) := by
          simp only [u64MOD]
          omega
        rw [hmod, hsplit, split_counters_packed _ _ hT (by omega)]
        simp

/-- C9 witness: dropping the only token of a standalone token cell. -/
theorem c9_drop_total_no_underflow_witness :
    unitOf CounterPart.Token ≤ (run CounterPart.Token []).cell.word ∧
    (remove_reference ((run CounterPart.Token []).cell.word) CounterPart.Token).1 +
        unitOf CounterPart.Token = (run CounterPart.Token []).cell.word ∧
    split_counters ((remove_reference ((run CounterPart.Token []).cell.word)
        CounterPart.Token).1) =
      ((split_counters ((run CounterPart.Token []).cell.word)).1 -
         (if CounterPart.Token = CounterPart.Token then 1 else 0),
       (split_counters ((run CounterPart.Token []).cell.word)).2 -
         (if CounterPart.Token = CounterPart.Counter then 1 else 0)) :=
  c9_drop_total_no_underflow CounterPart.Token [] CounterPart.Token
    (by decide) (by decide)

/-- C1: along every valid operation sequence from one root handle the cell is
allocated exactly once (by the root constructor), is live precisely while
some handle of either kind is live, is deallocated exactly once, precisely
by the drop of the last live handle of either kind, and once no handle is
left the configuration is one fixed final state independent of the order in
which handles were dropped and of which kind was dropped last. -/
theorem c1_lifecycle_alloc_dealloc (root : CounterPart) (ops : List Op)
    (h : validFrom (initConfig root) ops = true) :
    (run root ops).cell.allocs = 1 ∧
    ((run root ops).cell.allocated = true ↔
      1 ≤ (run root ops).tokens + (run root ops).counters) ∧
    ((run root ops).cell.deallocs =
      if 1 ≤ (run root ops).tokens + (run root ops).counters then 0 else 1) ∧
    ((run root ops).tokens + (run root ops).counters = 0 →
      run root ops =
        { tokens := 0, counters := 0,
          cell := { word := 0, allocated := false, allocs := 1, deallocs := 1 } }) := by
  obtain ⟨hA, hT, hC, hW, hAl, hD⟩ := inv_run root ops h
  refine ⟨hA, hAl, hD, ?_⟩
  intro h0
  have ht : (run root ops).tokens = 0 := by omega
  have hc : (run root ops).counters = 0 := by omega
  have hw : (run root ops).cell.word = 0 := by omega
  have hal : (run root ops).cell.allocated = false := by
    cases hb : (run root ops).cell.allocated with
    | false => rfl
    | true => exact absurd (hAl.mp hb) (by omega)
  have hd : (run root ops).cell.deallocs = 1 := by
    rw [hD]
    split_ifs <;> omega
  rw [config_eta (run root ops), ht, hc, hw, hal, hA, hd]

/-- C1 witness: a root observer mints a token, then both are dropped (token
first); the final state is the deallocated one. -/
theorem c1_lifecycle_alloc_dealloc_witness :
    (run CounterPart.Counter
        [Op.attach CounterPart.Token, Op.detach CounterPart.Token,
         Op.detach CounterPart.Counter]).cell.allocs = 1 ∧
    ((run CounterPart.Counter
        [Op.attach CounterPart.Token, Op.detach CounterPart.Token,
         Op.detach CounterPart.Counter]).cell.allocated = true ↔
      1 ≤ (run CounterPart.Counter
        [Op.attach CounterPart.Token, Op.detach CounterPart.Token,
         Op.detach CounterPart.Counter]).tokens +
        (run CounterPart.Counter
        [Op.attach CounterPart.Token, Op.detach CounterPart.Token,
         Op.detach CounterPart.Counter]).counters) ∧
    ((run CounterPart.Counter
        [Op.attach CounterPart.Token, Op.detach CounterPart.Token,
         Op.detach CounterPart.Counter]).cell.deallocs =
      if 1 ≤ (run CounterPart.Counter
        [Op.attach CounterPart.Token, Op.detach CounterPart.Token,
         Op.detach CounterPart.Counter]).tokens +
        (run CounterPart.Counter
        [Op.attach CounterPart.Token, Op.detach CounterPart.Token,
         Op.detach CounterPart.Counter]).counters then 0 else 1) ∧
    ((run CounterPart.Counter
        [Op.attach CounterPart.Token, Op.detach CounterPart.Token,
         Op.detach CounterPart.Counter]).tokens +
      (run CounterPart.Counter
        [Op.attach CounterPart.Token, Op.detach CounterPart.Token,
         Op.detach CounterPart.Counter]).counters = 0 →
      run CounterPart.Counter
        [Op.attach CounterPart.Token, Op.detach CounterPart.Token,
         Op.detach CounterPart.Counter] =
        { tokens := 0, counters := 0,
          cell := { word := 0, allocated := false, allocs := 1, deallocs := 1 } }) :=
  c1_lifecycle_alloc_dealloc CounterPart.Counter
    [Op.attach CounterPart.Token, Op.detach CounterPart.Token,
     Op.detach CounterPart.Counter] (by decide)

/-- C7: the concrete sequential scenario of the spec, step by step: observer
c reports 0; clone c2 keeps 0; minting t1 gives 1; minting t2 from t1 gives
2; dropping t1 gives 1; dropping t2 gives 0; minting t3 from c2 gives 1;
dropping c and c2 leaves t3 reporting 1 with the cell still allocated;
minting observer c3 from t3 still reports 1. -/
theorem c7_concrete_scenario :
    validFrom (initConfig CounterPart.Counter)
      [Op.attach CounterPart.Counter, Op.attach CounterPart.Token,
       Op.attach CounterPart.Token, Op.detach CounterPart.Token,
       Op.detach CounterPart.Token, Op.attach CounterPart.Token,
       Op.detach CounterPart.Counter, Op.detach CounterPart.Counter,
       Op.attach CounterPart.Counter] = true ∧
    sibling_count ((run CounterPart.Counter []).cell.word) = 0 ∧
    sibling_count ((run CounterPart.Counter
      [Op.attach CounterPart.Counter]).cell.word) = 0 ∧
    sibling_count ((run CounterPart.Counter
      [Op.attach CounterPart.Counter, Op.attach CounterPart.Token]).cell.word) = 1 ∧
    sibling_count ((run CounterPart.Counter
      [Op.attach CounterPart.Counter, Op.attach CounterPart.Token,
       Op.attach CounterPart.Token]).cell.word) = 2 ∧
    sibling_count ((run CounterPart.Counter
      [Op.attach CounterPart.Counter, Op.attach CounterPart.Token,
       Op.attach CounterPart.Token, Op.detach CounterPart.Token]).cell.word) = 1 ∧
    sibling_count ((run CounterPart.Counter
      [Op.attach CounterPart.Counter, Op.attach CounterPart.Token,
       Op.attach CounterPart.Token, Op.detach CounterPart.Token,
       Op.detach CounterPart.Token]).cell.word) = 0 ∧
    sibling_count ((run CounterPart.Counter
      [Op.attach CounterPart.Counter, Op.attach CounterPart.Token,
       Op.attach CounterPart.Token, Op.detach CounterPart.Token,
       Op.detach CounterPart.Token, Op.attach CounterPart.Token]).cell.word) = 1 ∧
    sibling_count ((run CounterPart.Counter
      [Op.attach CounterPart.Counter, Op.attach CounterPart.Token,
       Op.attach CounterPart.Token, Op.detach CounterPart.Token,
       Op.detach CounterPart.Token, Op.attach CounterPart.Token,
       Op.detach CounterPart.Counter, Op.detach CounterPart.Counter]).cell.word) = 1 ∧
    (run CounterPart.Counter
      [Op.attach CounterPart.Counter, Op.attach CounterPart.Token,
       Op.attach CounterPart.Token, Op.detach CounterPart.Token,
       Op.detach CounterPart.Token, Op.attach CounterPart.Token,
       Op.detach CounterPart.Counter, Op.detach CounterPart.Counter]).cell.allocated =
      true ∧
    sibling_count ((run CounterPart.Counter
      [Op.attach CounterPart.Counter, Op.attach CounterPart.Token,
       Op.attach CounterPart.Token, Op.detach CounterPart.Token,
       Op.detach CounterPart.Token, Op.attach CounterPart.Token,
       Op.detach CounterPart.Counter, Op.detach CounterPart.Counter,
       Op.attach CounterPart.Counter]).cell.word) = 1 ∧
    (run CounterPart.Counter
      [Op.attach CounterPart.Counter, Op.attach CounterPart.Token,
       Op.attach CounterPart.Token, Op.detach CounterPart.Token,
       Op.detach CounterPart.Token, Op.attach CounterPart.Token,
       Op.detach CounterPart.Counter, Op.detach CounterPart.Counter,
       Op.attach CounterPart.Counter]).cell.allocated = true := by decide

end AtomicSiblingCounter
